import Mathlib

/-!
Verification of the optic-classifier core (`src/helpers.py`) against its
natural-language specification.

Shallow embedding conventions:
* a numpy pixel array (dtype uint8) is a `List ℕ`;
* a float64 array is a `List ℝ`; a complex128 array is a `List ℂ`;
* 2D arrays (only the Classifier slices 2D) are `List (List ℝ)`, rows first,
  with numpy's `shape = (X, Y)` read off as the row count and the length of
  the first row (numpy arrays are rectangular);
* elementwise numpy operations become `List.map`;
* `np.round` rounds half to even (numpy's rule), modelled by `np_round`;
* `astype(np.uint8)` of a non-negative integral float truncates and wraps
  modulo 2^8, modelled by `astype_uint8`.

Exact real arithmetic stands in for float64: all the equalities proved below
(`exp(iπ) = -1`, `π·255/π = 255`, ...) are exact in ℝ, which in particular
implies every "within 1e-9" tolerance the specification allows.
-/

set_option autoImplicit false

namespace Optic

/-- `convert_to_pi_scale` (helpers.py lines 8-27): cast the pixel array to
float64, then `np.where(arr > 127, 0, np.pi)`. -/
noncomputable def convert_to_pi_scale (arr : List ℕ) : List ℝ :=
  let arrf : List ℝ := arr.map (fun p : ℕ => (p : ℝ))
  arrf.map (fun x => if x > 127 then 0 else Real.pi)

/-- `convert_to_255` (lines 56-70): `arr * 255 / np.pi`, elementwise on a
float array. -/
noncomputable def convert_to_255 (arr : List ℝ) : List ℝ :=
  arr.map (fun x => x * 255 / Real.pi)

/-- numpy's `np.round`: round half to even (banker's rounding). -/
noncomputable def np_round (x : ℝ) : ℤ :=
  if Int.fract x < 1 / 2 then ⌊x⌋
  else if 1 / 2 < Int.fract x then ⌊x⌋ + 1
  else if Even ⌊x⌋ then ⌊x⌋ else ⌊x⌋ + 1

/-- `astype(np.uint8)` on a non-negative integral float: truncate to an
integer and wrap modulo 2^8 (numpy wraps out-of-range values, it does not
clamp and raises no error). -/
noncomputable def astype_uint8 (x : ℝ) : ℕ := (⌊x⌋ % 256).toNat

/-- `from_phase_modulation` (lines 30-53): magnitude, then `convert_to_255`,
then `np.round`, then `astype(np.uint8)`. -/
noncomputable def from_phase_modulation (arr : List ℂ) : List ℕ :=
  let magnitude := arr.map Complex.abs
  let pixel_values := convert_to_255 magnitude
  let rounded := pixel_values.map (fun x => ((np_round x : ℤ) : ℝ))
  rounded.map astype_uint8

/-- `expj` (lines 73-90): cast the angle array to complex128, then
`np.exp(1j * arr)`. -/
noncomputable def expj (arr : List ℝ) : List ℂ :=
  let arr_c : List ℂ := arr.map (fun x : ℝ => (x : ℂ))
  arr_c.map (fun z => Complex.exp (Complex.I * z))

/-- `phase_modulation` (lines 93-105): `expj(convert_to_pi_scale(arr))`. -/
noncomputable def phase_modulation (arr : List ℕ) : List ℂ :=
  expj (convert_to_pi_scale arr)

/-- `inv_expj` (lines 108-125): `np.angle(arr) / 1j`.  `np.angle` is the
principal argument; dividing the (real) angle by `1j` promotes it to a
complex value `angle / i = -i * angle`. -/
noncomputable def inv_expj (arr : List ℂ) : List ℂ :=
  let angles : List ℝ := arr.map Complex.arg
  angles.map (fun x : ℝ => (x : ℂ) / Complex.I)

/-- `convert_to_255` as numpy evaluates it on a complex128 array (the dtype
it receives inside `inv_phase_modulation`). -/
noncomputable def convert_to_255_c (arr : List ℂ) : List ℂ :=
  arr.map (fun z => z * 255 / (Real.pi : ℂ))

/-- `inv_phase_modulation` (lines 128-140): `convert_to_255(inv_expj(arr))`. -/
noncomputable def inv_phase_modulation (arr : List ℂ) : List ℂ :=
  convert_to_255_c (inv_expj arr)

/-! ### The Classifier (`display_example`, lines 197-261)

Only the intensity bookkeeping and the final classification branch are
numeric; the matplotlib panes are presentation.  `X, Y = intensity.shape`,
the four quadrant sums slice at the floor-division midpoints, the quarters
list is `[upper_right, upper_left, lower_right, lower_left]`, and the label
is decided by `max(quarters) == ...` checks in the order
upper-left, upper-right, lower-left, else lower-right. -/

/-- `X`: number of rows of the 2D intensity array. -/
def shapeX (m : List (List ℝ)) : ℕ := m.length

/-- `Y`: number of columns (length of the first row; numpy arrays are
rectangular). -/
def shapeY (m : List (List ℝ)) : ℕ := (m.headD []).length

/-- `np.sum` over a 2D block. -/
def sum2 (m : List (List ℝ)) : ℝ := (m.map List.sum).sum

/-- `intensity[:X//2, :Y//2]`. -/
def upperLeft (m : List (List ℝ)) : List (List ℝ) :=
  (m.take (shapeX m / 2)).map (fun r => r.take (shapeY m / 2))

/-- `intensity[:X//2, Y//2:]`. -/
def upperRight (m : List (List ℝ)) : List (List ℝ) :=
  (m.take (shapeX m / 2)).map (fun r => r.drop (shapeY m / 2))

/-- `intensity[X//2:, :Y//2]`. -/
def lowerLeft (m : List (List ℝ)) : List (List ℝ) :=
  (m.drop (shapeX m / 2)).map (fun r => r.take (shapeY m / 2))

/-- `intensity[X//2:, Y//2:]`. -/
def lowerRight (m : List (List ℝ)) : List (List ℝ) :=
  (m.drop (shapeX m / 2)).map (fun r => r.drop (shapeY m / 2))

/-- `upper_left_intens = np.sum(intensity[:X//2, :Y//2])`. -/
def upper_left_intens (m : List (List ℝ)) : ℝ := sum2 (upperLeft m)

/-- `upper_right_intens = np.sum(intensity[:X//2, Y//2:])`. -/
def upper_right_intens (m : List (List ℝ)) : ℝ := sum2 (upperRight m)

/-- `lower_left_intens = np.sum(intensity[X//2:, :Y//2])`. -/
def lower_left_intens (m : List (List ℝ)) : ℝ := sum2 (lowerLeft m)

/-- `lower_right_intens = np.sum(intensity[X//2:, Y//2:])`. -/
def lower_right_intens (m : List (List ℝ)) : ℝ := sum2 (lowerRight m)

/-- Python's `max(quarters)` over
`quarters = [upper_right, upper_left, lower_right, lower_left]`
(a left fold of binary `max` over the list). -/
noncomputable def quarters_max (m : List (List ℝ)) : ℝ :=
  max (max (max (upper_right_intens m) (upper_left_intens m))
        (lower_right_intens m))
    (lower_left_intens m)

/-- The classification branch at the end of `display_example`
(lines 253-261): first match on `max(quarters) ==` each quadrant sum wins. -/
noncomputable def display_example_label (m : List (List ℝ)) : ℕ :=
  if quarters_max m = upper_left_intens m then 0
  else if quarters_max m = upper_right_intens m then 1
  else if quarters_max m = lower_left_intens m then 2
  else 3

/-! ### Allocation model of the transform chain

numpy code could in principle mutate an argument in place (`out=`, `+=`,
slice assignment); none of the transforms here does.  To state that as a
frame property rather than assume it, each transform is also given a
store-passing embedding: arrays live in a heap (a list of allocated numpy
arrays, with their dtype), an array argument is a reference into the heap,
and every numpy operation the source performs (`astype`, `np.where`,
arithmetic, `np.exp`, `np.angle`, `np.abs`, `np.round`) allocates a fresh
array at the end of the heap — exactly what the source's operations do.
The frame theorem then says: every heap cell that existed before a call,
the input array included, is unchanged after it, and the returned reference
is freshly allocated. -/

/-- An allocated numpy array together with its dtype. -/
inductive NpArray where
  | reals (l : List ℝ)
  | complexes (l : List ℂ)
  | uint8s (l : List ℕ)

/-- Read a float64 array (empty for a dtype mismatch, which the source never
exercises). -/
def NpArray.asReals : NpArray → List ℝ
  | .reals l => l
  | _ => []

/-- Read a complex128 array. -/
def NpArray.asComplexes : NpArray → List ℂ
  | .complexes l => l
  | _ => []

/-- Read a uint8 array. -/
def NpArray.asNats : NpArray → List ℕ
  | .uint8s l => l
  | _ => []

/-- The store of allocated arrays. -/
abbrev Heap := List NpArray

/-- Dereference an array. -/
def readArr (h : Heap) (r : ℕ) : NpArray := h.getD r (.reals [])

/-- Allocate a fresh array at the end of the heap and return its
reference. -/
def alloc (h : Heap) (a : NpArray) : Heap × ℕ := (h ++ [a], h.length)

/-- numpy's dtype dispatch for `arr * 255 / np.pi`: float and int arrays
scale to float64, complex arrays to complex128. -/
noncomputable def scale255 : NpArray → NpArray
  | .reals l => .reals (l.map (fun x => x * 255 / Real.pi))
  | .complexes l => .complexes (l.map (fun z => z * 255 / (Real.pi : ℂ)))
  | .uint8s l => .reals (l.map (fun k : ℕ => (k : ℝ) * 255 / Real.pi))

/-- `convert_to_pi_scale` in the allocation model: `astype("float64")`
allocates, then `np.where(arr > 127, 0, np.pi)` allocates. -/
noncomputable def convert_to_pi_scale_st (h : Heap) (arr : ℕ) : Heap × ℕ :=
  let s1 := alloc h (.reals (((readArr h arr).asNats).map (fun p : ℕ => (p : ℝ))))
  alloc s1.1 (.reals (((readArr s1.1 s1.2).asReals).map
    (fun x => if x > 127 then (0 : ℝ) else Real.pi)))

/-- `convert_to_255` in the allocation model: the arithmetic allocates. -/
noncomputable def convert_to_255_st (h : Heap) (arr : ℕ) : Heap × ℕ :=
  alloc h (scale255 (readArr h arr))

/-- `expj` in the allocation model: `astype("complex128")` allocates, then
`np.exp(1j * arr)` allocates. -/
noncomputable def expj_st (h : Heap) (arr : ℕ) : Heap × ℕ :=
  let s1 := alloc h (.complexes (((readArr h arr).asReals).map (fun x : ℝ => (x : ℂ))))
  alloc s1.1 (.complexes (((readArr s1.1 s1.2).asComplexes).map
    (fun z => Complex.exp (Complex.I * z))))

/-- `phase_modulation` in the allocation model: the composition of the two
calls the source makes. -/
noncomputable def phase_modulation_st (h : Heap) (arr : ℕ) : Heap × ℕ :=
  let s1 := convert_to_pi_scale_st h arr
  expj_st s1.1 s1.2

/-- `inv_expj` in the allocation model: `np.angle` allocates, then the
division by `1j` allocates. -/
noncomputable def inv_expj_st (h : Heap) (arr : ℕ) : Heap × ℕ :=
  let s1 := alloc h (.reals (((readArr h arr).asComplexes).map Complex.arg))
  alloc s1.1 (.complexes (((readArr s1.1 s1.2).asReals).map
    (fun x : ℝ => (x : ℂ) / Complex.I)))

/-- `inv_phase_modulation` in the allocation model. -/
noncomputable def inv_phase_modulation_st (h : Heap) (arr : ℕ) : Heap × ℕ :=
  let s1 := inv_expj_st h arr
  convert_to_255_st s1.1 s1.2

/-- `from_phase_modulation` in the allocation model: `np.abs` allocates,
`convert_to_255` is called, `np.round` allocates, `astype(np.uint8)`
allocates. -/
noncomputable def from_phase_modulation_st (h : Heap) (arr : ℕ) : Heap × ℕ :=
  let s1 := alloc h (.reals (((readArr h arr).asComplexes).map Complex.abs))
  let s2 := convert_to_255_st s1.1 s1.2
  let s3 := alloc s2.1 (.reals (((readArr s2.1 s2.2).asReals).map
    (fun x => ((np_round x : ℤ) : ℝ))))
  alloc s3.1 (.uint8s (((readArr s3.1 s3.2).asReals).map astype_uint8))

/-- A concrete 5×5 intensity array with entry `10·row + col`, used to
exercise the odd-dimension quadrant split. -/
noncomputable def mat5 : List (List ℝ) :=
  [[0, 1, 2, 3, 4],
   [10, 11, 12, 13, 14],
   [20, 21, 22, 23, 24],
   [30, 31, 32, 33, 34],
   [40, 41, 42, 43, 44]]

/-! ### Helper lemmas -/

lemma convert_to_pi_scale_eq (P : List ℕ) :
    convert_to_pi_scale P = P.map (fun p => if 127 < p then (0 : ℝ) else Real.pi) := by
  induction P with
  | nil => rfl
  | cons p t ih =>
    simp only [convert_to_pi_scale, List.map_cons] at ih ⊢
    refine congrArg₂ List.cons ?_ ih
    show (if (p : ℝ) > 127 then (0 : ℝ) else Real.pi)
        = if 127 < p then (0 : ℝ) else Real.pi
    by_cases h : 127 < p
    · rw [if_pos h, if_pos (by exact_mod_cast h : (p : ℝ) > 127)]
    · rw [if_neg h, if_neg (fun hc => h (by exact_mod_cast hc))]

lemma expj_eq (l : List ℝ) :
    expj l = l.map (fun x : ℝ => Complex.exp (Complex.I * (x : ℂ))) := by
  induction l with
  | nil => rfl
  | cons x t ih =>
    simp only [expj, List.map_cons] at ih ⊢
    exact congrArg₂ List.cons rfl ih

lemma convert_to_255_pi_scale_eq (P : List ℕ) :
    convert_to_255 (convert_to_pi_scale P)
      = P.map (fun p => if 127 < p then (0 : ℝ) else 255) := by
  rw [convert_to_pi_scale_eq, convert_to_255, List.map_map]
  refine List.map_congr_left ?_
  intro p _
  by_cases h : 127 < p
  · simp [h]
  · simp only [Function.comp_apply, if_neg h]
    rw [mul_comm, mul_div_assoc, div_self Real.pi_ne_zero, mul_one]

lemma phase_modulation_eq (P : List ℕ) :
    phase_modulation P = P.map (fun p => if 127 < p then (1 : ℂ) else -1) := by
  rw [phase_modulation, expj_eq, convert_to_pi_scale_eq, List.map_map]
  refine List.map_congr_left ?_
  intro p _
  by_cases h : 127 < p
  · simp [h]
  · simp only [Function.comp_apply, if_neg h]
    rw [mul_comm, Complex.exp_pi_mul_I]

end Optic

/-- C1: `convert_to_pi_scale` binarizes: every pixel strictly above 127 maps
to 0 and every pixel ≤ 127 (127 itself included) maps to π, the length (shape)
of the input is preserved, the output lives in the float type ℝ, and every
output value lies in {0, π}. -/
theorem Optic.convert_to_pi_scale_binarizes (P : List ℕ) :
    Optic.convert_to_pi_scale P
        = P.map (fun p => if 127 < p then (0 : ℝ) else Real.pi) ∧
      (Optic.convert_to_pi_scale P).length = P.length ∧
      ∀ x ∈ Optic.convert_to_pi_scale P, x = 0 ∨ x = Real.pi := by
  refine ⟨Optic.convert_to_pi_scale_eq P, ?_, ?_⟩
  · rw [Optic.convert_to_pi_scale_eq]; simp
  · intro x hx
    rw [Optic.convert_to_pi_scale_eq] at hx
    rcases List.mem_map.1 hx with ⟨p, _, hp⟩
    by_cases h : 127 < p
    · left; rw [← hp, if_pos h]
    · right; rw [← hp, if_neg h]

/-- C2: `phase_modulation` yields 1+0i wherever the pixel is > 127 and -1+0i
wherever it is ≤ 127 — exactly, which in particular is within the 1e-9
tolerance the spec allows — and every element of the resulting field has unit
magnitude. -/
theorem Optic.phase_modulation_spec (P : List ℕ) :
    Optic.phase_modulation P = P.map (fun p => if 127 < p then (1 : ℂ) else -1) ∧
      (∀ z ∈ Optic.phase_modulation P, Complex.abs z = 1) ∧
      (Optic.phase_modulation P).length = P.length := by
  refine ⟨Optic.phase_modulation_eq P, ?_, ?_⟩
  · intro z hz
    rw [Optic.phase_modulation_eq] at hz
    rcases List.mem_map.1 hz with ⟨p, _, hp⟩
    by_cases h : 127 < p
    · rw [← hp, if_pos h]; simp
    · rw [← hp, if_neg h]; simp
  · rw [Optic.phase_modulation_eq]; simp

/-- C3: the round trip `convert_to_255 (convert_to_pi_scale P)` collapses
every pixel to exactly 0 (when the pixel is > 127) or exactly 255 (when it is
≤ 127), never an intermediate value. -/
theorem Optic.round_trip_collapses (P : List ℕ) :
    Optic.convert_to_255 (Optic.convert_to_pi_scale P)
        = P.map (fun p => if 127 < p then (0 : ℝ) else 255) ∧
      ∀ x ∈ Optic.convert_to_255 (Optic.convert_to_pi_scale P),
        x = 0 ∨ x = 255 := by
  refine ⟨Optic.convert_to_255_pi_scale_eq P, ?_⟩
  intro x hx
  rw [Optic.convert_to_255_pi_scale_eq] at hx
  rcases List.mem_map.1 hx with ⟨p, _, hp⟩
  by_cases h : 127 < p
  · left; rw [← hp, if_pos h]
  · right; rw [← hp, if_neg h]

/-- C5: the classification branch decides by strict first-match priority on
`max(quarters)`: upper-left wins first (label 0), then upper-right (1), then
lower-left (2), else lower-right (3); in particular whenever the upper-left
sum is at least every other quadrant sum — any tie with upper-left included —
the label is 0. -/
theorem Optic.classify_first_match (m : List (List ℝ))
    (hX : 1 ≤ Optic.shapeX m) (hY : 1 ≤ Optic.shapeY m) :
    (Optic.quarters_max m = Optic.upper_left_intens m →
        Optic.display_example_label m = 0) ∧
      (Optic.quarters_max m ≠ Optic.upper_left_intens m →
        Optic.quarters_max m = Optic.upper_right_intens m →
        Optic.display_example_label m = 1) ∧
      (Optic.quarters_max m ≠ Optic.upper_left_intens m →
        Optic.quarters_max m ≠ Optic.upper_right_intens m →
        Optic.quarters_max m = Optic.lower_left_intens m →
        Optic.display_example_label m = 2) ∧
      (Optic.quarters_max m ≠ Optic.upper_left_intens m →
        Optic.quarters_max m ≠ Optic.upper_right_intens m →
        Optic.quarters_max m ≠ Optic.lower_left_intens m →
        Optic.display_example_label m = 3) ∧
      (Optic.upper_right_intens m ≤ Optic.upper_left_intens m →
        Optic.lower_left_intens m ≤ Optic.upper_left_intens m →
        Optic.lower_right_intens m ≤ Optic.upper_left_intens m →
        Optic.display_example_label m = 0) := by
  refine ⟨?_, ?_, ?_, ?_, ?_⟩
  · intro h; simp only [Optic.display_example_label, if_pos h]
  · intro h1 h2
    simp only [Optic.display_example_label, if_neg h1, if_pos h2]
  · intro h1 h2 h3
    simp only [Optic.display_example_label, if_neg h1, if_neg h2, if_pos h3]
  · intro h1 h2 h3
    simp only [Optic.display_example_label, if_neg h1, if_neg h2, if_neg h3]
  · intro a b c
    have hm : Optic.quarters_max m = Optic.upper_left_intens m := by
      unfold Optic.quarters_max
      rw [max_eq_right a, max_eq_left c, max_eq_left b]
    simp only [Optic.display_example_label, if_pos hm]

/-- C5 witness: on the 2×2 intensity `[[1,0],[0,0]]` (all mass upper-left)
the classifier returns label 0, via `classify_first_match`. -/
theorem Optic.classify_first_match_witness :
    Optic.display_example_label [[(1 : ℝ), 0], [0, 0]] = 0 := by
  have h := Optic.classify_first_match [[(1 : ℝ), 0], [0, 0]]
    (by norm_num [Optic.shapeX]) (by norm_num [Optic.shapeY])
  refine h.2.2.2.2 ?_ ?_ ?_ <;>
    norm_num [Optic.upper_left_intens, Optic.upper_right_intens,
      Optic.lower_left_intens, Optic.lower_right_intens, Optic.sum2,
      Optic.upperLeft, Optic.upperRight, Optic.lowerLeft, Optic.lowerRight,
      Optic.shapeX, Optic.shapeY]

/-- C6: the classifier splits at the floor-division midpoints `X//2`, `Y//2`:
for a rectangular X×Y intensity array the upper-left block is (X//2)×(Y//2),
the upper-right (X//2)×(Y−Y//2), the lower-left (X−X//2)×(Y//2) and the
lower-right (X−X//2)×(Y−Y//2) — no centering or rounding adjustment. -/
theorem Optic.quadrant_split_floor (m : List (List ℝ))
    (hrect : ∀ r ∈ m, r.length = Optic.shapeY m) :
    ((Optic.upperLeft m).length = Optic.shapeX m / 2 ∧
        ∀ r ∈ Optic.upperLeft m, r.length = Optic.shapeY m / 2) ∧
      ((Optic.upperRight m).length = Optic.shapeX m / 2 ∧
        ∀ r ∈ Optic.upperRight m,
          r.length = Optic.shapeY m - Optic.shapeY m / 2) ∧
      ((Optic.lowerLeft m).length = Optic.shapeX m - Optic.shapeX m / 2 ∧
        ∀ r ∈ Optic.lowerLeft m, r.length = Optic.shapeY m / 2) ∧
      ((Optic.lowerRight m).length = Optic.shapeX m - Optic.shapeX m / 2 ∧
        ∀ r ∈ Optic.lowerRight m,
          r.length = Optic.shapeY m - Optic.shapeY m / 2) := by
  have hXle : Optic.shapeX m / 2 ≤ m.length := Nat.div_le_self _ _
  refine ⟨⟨?_, ?_⟩, ⟨?_, ?_⟩, ⟨?_, ?_⟩, ⟨?_, ?_⟩⟩
  · simp [Optic.upperLeft, Nat.min_eq_left hXle]
  · intro r hr
    rcases List.mem_map.1 hr with ⟨row, hrow, rfl⟩
    have hy := hrect row (List.take_subset _ _ hrow)
    simp [hy, Nat.min_eq_left (Nat.div_le_self _ _)]
  · simp [Optic.upperRight, Nat.min_eq_left hXle]
  · intro r hr
    rcases List.mem_map.1 hr with ⟨row, hrow, rfl⟩
    have hy := hrect row (List.take_subset _ _ hrow)
    simp [hy]
  · simp [Optic.lowerLeft, Optic.shapeX]
  · intro r hr
    rcases List.mem_map.1 hr with ⟨row, hrow, rfl⟩
    have hy := hrect row (List.drop_subset _ _ hrow)
    simp [hy, Nat.min_eq_left (Nat.div_le_self _ _)]
  · simp [Optic.lowerRight, Optic.shapeX]
  · intro r hr
    rcases List.mem_map.1 hr with ⟨row, hrow, rfl⟩
    have hy := hrect row (List.drop_subset _ _ hrow)
    simp [hy]

/-- C6 witness: on a concrete 5×5 array (entry `10·row + col`) the quadrants
have shapes 2×2, 2×3, 3×2, 3×3, and the lower-right block is exactly rows
2–4 × cols 2–4 of the original, via `quadrant_split_floor`. -/
theorem Optic.quadrant_split_floor_witness :
    ((Optic.upperLeft Optic.mat5).length = 2 ∧ ∀ r ∈ Optic.upperLeft Optic.mat5, r.length = 2) ∧
      ((Optic.upperRight Optic.mat5).length = 2 ∧ ∀ r ∈ Optic.upperRight Optic.mat5, r.length = 3) ∧
      ((Optic.lowerLeft Optic.mat5).length = 3 ∧ ∀ r ∈ Optic.lowerLeft Optic.mat5, r.length = 2) ∧
      ((Optic.lowerRight Optic.mat5).length = 3 ∧ ∀ r ∈ Optic.lowerRight Optic.mat5, r.length = 3) ∧
      Optic.lowerRight Optic.mat5 = [[22, 23, 24], [32, 33, 34], [42, 43, 44]] := by
  have h := Optic.quadrant_split_floor Optic.mat5 (by
    intro r hr
    simp only [mat5] at hr
    fin_cases hr <;> rfl)
  have hX : Optic.shapeX Optic.mat5 = 5 := rfl
  have hY : Optic.shapeY Optic.mat5 = 5 := rfl
  rw [hX, hY] at h
  refine ⟨h.1, h.2.1, h.2.2.1, h.2.2.2, ?_⟩
  simp [Optic.lowerRight, Optic.shapeX, Optic.shapeY, Optic.mat5]

/-- C8: on a zero-size intensity array the classification branch of
`display_example` raises nothing: all four quadrant sums are 0, the
`max(quarters) == upper_left_intens` check succeeds, and the label 0 is
silently produced. -/
theorem Optic.classifier_empty_label_zero :
    Optic.display_example_label ([] : List (List ℝ)) = 0 := by
  simp [Optic.display_example_label, Optic.quarters_max,
    Optic.upper_left_intens, Optic.upper_right_intens,
    Optic.lower_left_intens, Optic.lower_right_intens, Optic.sum2,
    Optic.upperLeft, Optic.upperRight, Optic.lowerLeft, Optic.lowerRight,
    Optic.shapeX, Optic.shapeY]

namespace Optic

lemma np_round_intCast (n : ℤ) : np_round ((n : ℤ) : ℝ) = n := by
  unfold np_round
  rw [if_pos (by rw [Int.fract_intCast]; norm_num), Int.floor_intCast]

lemma np_round_255_div_pi : np_round ((255 : ℝ) / Real.pi) = 81 := by
  have hpi1 : (3.141592 : ℝ) < Real.pi := Real.pi_gt_d6
  have hpi2 : Real.pi < 3.141593 := Real.pi_lt_d6
  have hpos : (0 : ℝ) < Real.pi := Real.pi_pos
  have h1 : (81 : ℝ) ≤ 255 / Real.pi := by
    rw [le_div_iff₀ hpos]; nlinarith
  have h2 : (255 : ℝ) / Real.pi < 81.5 := by
    rw [div_lt_iff₀ hpos]; nlinarith
  have hf : ⌊(255 : ℝ) / Real.pi⌋ = 81 := by
    rw [Int.floor_eq_iff]
    constructor
    · exact_mod_cast h1
    · push_cast; linarith
  unfold np_round
  rw [if_pos, hf]
  rw [Int.fract, hf]
  push_cast
  linarith

lemma fpm_eq (arr : List ℂ) :
    from_phase_modulation arr
      = arr.map (fun z => ((np_round (Complex.abs z * 255 / Real.pi)) % 256).toNat) := by
  induction arr with
  | nil => rfl
  | cons z t ih =>
    simp only [from_phase_modulation, convert_to_255, List.map_cons] at ih ⊢
    refine congrArg₂ List.cons ?_ ih
    show astype_uint8 ((np_round (Complex.abs z * 255 / Real.pi) : ℤ) : ℝ)
        = ((np_round (Complex.abs z * 255 / Real.pi)) % 256).toNat
    unfold astype_uint8
    rw [Int.floor_intCast]

end Optic

/-- C4 (code bug): `inv_expj` does not return the principal argument: on the
input `[i]`, whose principal argument is π/2, the literal `np.angle(arr)/1j`
divides by the imaginary unit, so the code returns `[(π/2)/i] = [-(π/2)·i]`,
a purely imaginary value different from the principal argument `π/2` that the
spec (and the function's own docstring) promises. -/
theorem Optic.inv_expj_divides_by_I :
    Optic.inv_expj [Complex.I] = [((Real.pi / 2 : ℝ) : ℂ) / Complex.I] ∧
      Optic.inv_expj [Complex.I] ≠ [((Complex.arg Complex.I : ℝ) : ℂ)] := by
  have he : Optic.inv_expj [Complex.I]
      = [((Complex.arg Complex.I : ℝ) : ℂ) / Complex.I] := rfl
  constructor
  · rw [he, Complex.arg_I]
  · rw [he, Complex.arg_I]
    intro hc
    simp only [List.cons.injEq, and_true] at hc
    have him := congrArg Complex.im hc
    simp [div_eq_mul_inv, Complex.inv_I] at him
    have := Real.pi_pos
    linarith

/-- C7 counterexample: on the unit-magnitude field `[1+0i]` the decoder
`from_phase_modulation` returns `[81]` — the rounded value of `1·255/π ≈
81.17` — not `[255]` as the claim states. -/
theorem Optic.from_phase_modulation_unit_not_255 :
    Optic.from_phase_modulation [(1 : ℂ)] = [81] ∧ (81 : ℕ) ≠ 255 := by
  refine ⟨?_, by decide⟩
  rw [Optic.fpm_eq]
  simp only [List.map_cons, List.map_nil, map_one, one_mul]
  rw [Optic.np_round_255_div_pi]
  rfl

/-- C7 as amended: `from_phase_modulation` applied to a field whose elements
all have unit magnitude returns a pixel array in which every value is
`round(1·255/π) = 81` (not 255). -/
theorem Optic.from_phase_modulation_unit_81 (arr : List ℂ)
    (h : ∀ z ∈ arr, Complex.abs z = 1) :
    Optic.from_phase_modulation arr = arr.map (fun _ => 81) := by
  rw [Optic.fpm_eq]
  refine List.map_congr_left ?_
  intro z hz
  rw [h z hz, one_mul, Optic.np_round_255_div_pi]
  rfl

/-- C7 witness: the amended theorem applied to the concrete unit-magnitude
field `[-1+0i]` (the encoder's output for a dark pixel) gives `[81]`. -/
theorem Optic.from_phase_modulation_unit_81_witness :
    Optic.from_phase_modulation [(-1 : ℂ)] = [81] := by
  have h := Optic.from_phase_modulation_unit_81 [(-1 : ℂ)] (by
    intro z hz
    simp only [List.mem_singleton] at hz
    rw [hz]
    simp)
  simpa using h

/-- C10: `from_phase_modulation` equals `round(|F[i]|·255/π) mod 2^8`
element-wise — the uint8 cast wraps rather than clamps and raises nothing:
on the field element of magnitude `256π/255` the rounded scaled value is
exactly 256 and the resulting pixel is 0. -/
theorem Optic.from_phase_modulation_mod_wrap :
    (∀ arr : List ℂ, Optic.from_phase_modulation arr
        = arr.map (fun z =>
            ((Optic.np_round (Complex.abs z * 255 / Real.pi)) % 256).toNat)) ∧
      Optic.np_round
          (Complex.abs (((256 * Real.pi / 255 : ℝ) : ℂ)) * 255 / Real.pi)
        = 256 ∧
      Optic.from_phase_modulation [((256 * Real.pi / 255 : ℝ) : ℂ)] = [0] := by
  have habs : Complex.abs (((256 * Real.pi / 255 : ℝ) : ℂ))
      = 256 * Real.pi / 255 := by
    rw [Complex.abs_ofReal, abs_of_nonneg (by positivity)]
  have hval : (256 : ℝ) * Real.pi / 255 * 255 / Real.pi = 256 := by
    field_simp
  have hr : Optic.np_round ((256 : ℝ)) = 256 := by
    have := Optic.np_round_intCast 256
    norm_num at this
    exact this
  refine ⟨Optic.fpm_eq, ?_, ?_⟩
  · rw [habs, hval, hr]
  · rw [Optic.fpm_eq]
    simp only [List.map_cons, List.map_nil]
    rw [habs, hval, hr]
    rfl

namespace Optic

lemma take_len_append (h t : Heap) : (h ++ t).take h.length = h := by
  induction h with
  | nil => rfl
  | cons a s ih =>
    simp only [List.cons_append, List.length_cons, List.take_succ_cons, ih]

lemma frame_len {h1 h2 : Heap} (a : h2.take h1.length = h1) :
    h1.length ≤ h2.length := by
  have := congrArg List.length a
  simp only [List.length_take] at this
  omega

lemma frame_trans {h1 h2 h3 : Heap} (a : h2.take h1.length = h1)
    (b : h3.take h2.length = h2) : h3.take h1.length = h1 := by
  have hle : h1.length ≤ h2.length := frame_len a
  have hmm : (h3.take h2.length).take h1.length = h3.take h1.length := by
    rw [List.take_take, Nat.min_eq_left hle]
  rw [← hmm, b]
  exact a

lemma readArr_alloc (h : Heap) (a : NpArray) :
    readArr (alloc h a).1 (alloc h a).2 = a := by
  simp only [readArr, alloc]
  rw [List.getD_eq_getElem?_getD, List.getElem?_append_right (Nat.le_refl _)]
  simp

lemma cps_st_frame (h : Heap) (r : ℕ) :
    (convert_to_pi_scale_st h r).1.take h.length = h ∧
      h.length ≤ (convert_to_pi_scale_st h r).2 := by
  unfold convert_to_pi_scale_st
  exact ⟨frame_trans (take_len_append h _) (take_len_append _ _), by simp [alloc]⟩

lemma c255_st_frame (h : Heap) (r : ℕ) :
    (convert_to_255_st h r).1.take h.length = h ∧
      h.length ≤ (convert_to_255_st h r).2 := by
  unfold convert_to_255_st
  exact ⟨take_len_append h _, by simp [alloc]⟩

lemma expj_st_frame (h : Heap) (r : ℕ) :
    (expj_st h r).1.take h.length = h ∧ h.length ≤ (expj_st h r).2 := by
  unfold expj_st
  exact ⟨frame_trans (take_len_append h _) (take_len_append _ _), by simp [alloc]⟩

lemma pm_st_frame (h : Heap) (r : ℕ) :
    (phase_modulation_st h r).1.take h.length = h ∧
      h.length ≤ (phase_modulation_st h r).2 := by
  unfold phase_modulation_st
  have h1 := cps_st_frame h r
  have h2 := expj_st_frame (convert_to_pi_scale_st h r).1 (convert_to_pi_scale_st h r).2
  exact ⟨frame_trans h1.1 h2.1, le_trans (frame_len h1.1) h2.2⟩

lemma iexpj_st_frame (h : Heap) (r : ℕ) :
    (inv_expj_st h r).1.take h.length = h ∧ h.length ≤ (inv_expj_st h r).2 := by
  unfold inv_expj_st
  exact ⟨frame_trans (take_len_append h _) (take_len_append _ _), by simp [alloc]⟩

lemma ipm_st_frame (h : Heap) (r : ℕ) :
    (inv_phase_modulation_st h r).1.take h.length = h ∧
      h.length ≤ (inv_phase_modulation_st h r).2 := by
  unfold inv_phase_modulation_st
  have h1 := iexpj_st_frame h r
  have h2 := c255_st_frame (inv_expj_st h r).1 (inv_expj_st h r).2
  exact ⟨frame_trans h1.1 h2.1, le_trans (frame_len h1.1) h2.2⟩

lemma fpm_st_frame (h : Heap) (r : ℕ) :
    (from_phase_modulation_st h r).1.take h.length = h ∧
      h.length ≤ (from_phase_modulation_st h r).2 := by
  have h1 : ((alloc h (.reals (((readArr h r).asComplexes).map Complex.abs))).1).take
      h.length = h := take_len_append h _
  have h2 := c255_st_frame (alloc h (.reals (((readArr h r).asComplexes).map Complex.abs))).1
    (alloc h (.reals (((readArr h r).asComplexes).map Complex.abs))).2
  have h12 := frame_trans h1 h2.1
  set s2 := convert_to_255_st
    (alloc h (.reals (((readArr h r).asComplexes).map Complex.abs))).1
    (alloc h (.reals (((readArr h r).asComplexes).map Complex.abs))).2 with hs2
  have h3 : ((alloc s2.1 (.reals (((readArr s2.1 s2.2).asReals).map
      (fun x => ((np_round x : ℤ) : ℝ))))).1).take s2.1.length = s2.1 :=
    take_len_append _ _
  have h123 := frame_trans h12 h3
  set s3 := alloc s2.1 (.reals (((readArr s2.1 s2.2).asReals).map
    (fun x => ((np_round x : ℤ) : ℝ)))) with hs3
  have h4 : ((alloc s3.1 (.uint8s (((readArr s3.1 s3.2).asReals).map
      astype_uint8))).1).take s3.1.length = s3.1 := take_len_append _ _
  exact ⟨frame_trans h123 h4, frame_len h123⟩

/-- Sanity check that the allocation model computes the same values as the
pure embedding: the array `convert_to_pi_scale_st` returns holds exactly
`convert_to_pi_scale` of the uint8 array its argument referenced. -/
lemma cps_st_value (h : Heap) (r : ℕ) :
    (readArr (convert_to_pi_scale_st h r).1 (convert_to_pi_scale_st h r).2).asReals
      = convert_to_pi_scale ((readArr h r).asNats) := by
  unfold convert_to_pi_scale_st convert_to_pi_scale
  rw [readArr_alloc, readArr_alloc]
  rfl

/-- Same sanity check for `convert_to_255_st` on a float64 argument. -/
lemma c255_st_value (h : Heap) (r : ℕ) (l : List ℝ) (hl : readArr h r = .reals l) :
    (readArr (convert_to_255_st h r).1 (convert_to_255_st h r).2).asReals
      = convert_to_255 l := by
  unfold convert_to_255_st
  rw [readArr_alloc, hl]
  rfl

end Optic

/-- C9: every core transform leaves every previously allocated array — its
input included — exactly as it was (the heap after the call extends the heap
before it) and returns a reference to a newly allocated array (at or past the
old end of the heap), for all seven transforms: `convert_to_pi_scale`,
`convert_to_255`, `expj`, `phase_modulation`, `inv_expj`,
`inv_phase_modulation` and `from_phase_modulation`. -/
theorem Optic.transforms_fresh_alloc :
    ∀ (h : Optic.Heap) (r : ℕ),
      ((Optic.convert_to_pi_scale_st h r).1.take h.length = h ∧
          h.length ≤ (Optic.convert_to_pi_scale_st h r).2) ∧
        ((Optic.convert_to_255_st h r).1.take h.length = h ∧
          h.length ≤ (Optic.convert_to_255_st h r).2) ∧
        ((Optic.expj_st h r).1.take h.length = h ∧
          h.length ≤ (Optic.expj_st h r).2) ∧
        ((Optic.phase_modulation_st h r).1.take h.length = h ∧
          h.length ≤ (Optic.phase_modulation_st h r).2) ∧
        ((Optic.inv_expj_st h r).1.take h.length = h ∧
          h.length ≤ (Optic.inv_expj_st h r).2) ∧
        ((Optic.inv_phase_modulation_st h r).1.take h.length = h ∧
          h.length ≤ (Optic.inv_phase_modulation_st h r).2) ∧
        ((Optic.from_phase_modulation_st h r).1.take h.length = h ∧
          h.length ≤ (Optic.from_phase_modulation_st h r).2) :=
  fun h r =>
    ⟨Optic.cps_st_frame h r, Optic.c255_st_frame h r, Optic.expj_st_frame h r,
      Optic.pm_st_frame h r, Optic.iexpj_st_frame h r, Optic.ipm_st_frame h r,
      Optic.fpm_st_frame h r⟩
